import Mathlib

/-!
Verification of the booking engine of the `booking` repository.

The authoritative implementation is `src/accounts/api.py` together with the
`Booking` model of `src/accounts/models.py` (the generation wired into the
URL routes).  The older generation `src/core/services.py` contributes
`assert_no_conflict`, embedded separately below.

Modelling choices:
* A timezone-localized instant is a `LocalDT`: a local calendar day index
  `day` (with `day % 7 = 0` meaning Monday, matching Python's
  `date.weekday()` convention) and the wall-clock time of day `minute`
  (minutes after local midnight).  Instant comparison on real datetimes is
  exactly the lexicographic comparison on `(day, minute)`.
* The Django ORM store is a `Store`: the list of room ids, the list of
  persisted bookings and the next auto-increment primary key.
* Each HTTP endpoint becomes a function `Store → ... → Store × Option BErr`
  returning the post-state and the optional error, mirroring the Python
  control flow statement by statement; on every early `return _json_error`
  path the store component is the unchanged input store, because the Python
  code reaches `save()` only after all checks pass.
* `accounts.models.Booking` has columns `id, room, user, start, end, status,
  created_at` and **no** `approved_by` / `approved_at` columns; the API guards
  those writes with `hasattr(booking, "approved_by_id")`.  The Lean `Booking`
  carries optional `approvedBy`/`approvedAt` slots so that the property "the
  approver is recorded" is expressible, and the constant
  `bookingHasApproverFields := false` records the outcome of the `hasattr`
  probe on the accounts model.
-/

/-- A timezone-localized instant: local calendar day and minute of day.
`day % 7 = 0` is Monday (Python `weekday()` convention). -/
structure LocalDT where
  day : Nat
  minute : Nat
deriving DecidableEq, Repr

/-- `a < b` as instants: lexicographic on (day, minute of day). -/
def LocalDT.ltB (a b : LocalDT) : Bool :=
  a.day < b.day || (a.day == b.day && a.minute < b.minute)

/-- `a ≤ b` as instants: lexicographic on (day, minute of day). -/
def LocalDT.leB (a b : LocalDT) : Bool :=
  a.day < b.day || (a.day == b.day && a.minute ≤ b.minute)

/-- Booking status enum of `accounts.models.Booking.Status`. -/
inductive Status where
  | pending
  | approved
  | rejected
  | cancelled
deriving DecidableEq, Repr

/-- A persisted booking row.  `approvedBy`/`approvedAt` are the optional
approver columns probed by `hasattr` in the API; the accounts model does not
define them (see `bookingHasApproverFields`). -/
structure Booking where
  id : Nat
  room : Nat
  user : Nat
  start : LocalDT
  «end» : LocalDT
  status : Status
  approvedBy : Option Nat
  approvedAt : Option LocalDT
deriving DecidableEq, Repr

/-- The booking store: room ids, persisted bookings, next primary key. -/
structure Store where
  rooms : List Nat
  bookings : List Booking
  nextId : Nat
deriving DecidableEq, Repr

/-- A store with the given rooms and no bookings. -/
def initStore (rooms : List Nat) : Store :=
  { rooms := rooms, bookings := [], nextId := 1 }

/-- Error kinds of the API layer (each `_json_error` / `HttpResponseForbidden`
/ `get_object_or_404` outcome of `src/accounts/api.py`). -/
inductive BErr where
  | roomNotFound
  | outsideWorkingHours
  | timeConflict
  | validationFailed
  | notFound
  | forbidden
  | invalidTransition
deriving DecidableEq, Repr

-- WORKING HOURS CONFIG (src/accounts/api.py lines 19-21)
def WORK_DAYS : List Nat := [0, 1, 2, 3, 4]

/-- 08:00 as minutes after midnight. -/
def WORK_START : Nat := 8 * 60

/-- 20:00 as minutes after midnight. -/
def WORK_END : Nat := 20 * 60

/-- `accounts.models.Booking` defines neither `approved_by` nor `approved_at`,
so `hasattr(booking, "approved_by_id")` / `hasattr(booking, "approved_at")`
in the API are False. -/
def bookingHasApproverFields : Bool := false

/-- `_is_within_working_hours` of `src/accounts/api.py` (lines 78-114):
same local day, Mon-Fri, within 08:00..20:00, end strictly after start. -/
def is_within_working_hours (s e : LocalDT) : Bool :=
  if LocalDT.leB e s then false
  else if s.day != e.day then false
  else if !(WORK_DAYS.contains (s.day % 7)) then false
  else if s.minute < WORK_START then false
  else if e.minute > WORK_END then false
  else true

/-- A status is "active" when it is neither REJECTED nor CANCELLED,
mirroring `.exclude(status__in=[REJECTED, CANCELLED])`. -/
def isActive (s : Status) : Bool :=
  !(s == Status.rejected) && !(s == Status.cancelled)

/-- `_has_overlap_active` of `src/accounts/api.py` (lines 117-125):
some booking of the room, not rejected/cancelled, with
`start < end_candidate` and `end > start_candidate`, optionally excluding
one id. -/
def has_overlap_active (bookings : List Booking) (roomId : Nat)
    (s e : LocalDT) (excludeId : Option Nat) : Bool :=
  bookings.any fun b =>
    b.room == roomId
    && isActive b.status
    && LocalDT.ltB b.start e
    && LocalDT.ltB s b.«end»
    && (match excludeId with
        | none => true
        | some i => !(b.id == i))

/-- `Booking.clean` of `src/accounts/models.py` (lines 65-92): rejects
`end <= start`, then rejects overlap with PENDING/APPROVED bookings of the
same room, excluding the row itself when it already has a primary key
(`isNew = false`). Returns the raised `ValidationError` if any. -/
def Booking.clean (bookings : List Booking) (b : Booking) (isNew : Bool) :
    Option BErr :=
  if LocalDT.leB b.«end» b.start then some BErr.validationFailed
  else
    let qs := bookings.filter fun x =>
      x.room == b.room
      && (x.status == Status.pending || x.status == Status.approved)
      && (isNew || !(x.id == b.id))
    if qs.any (fun x => LocalDT.ltB x.start b.«end» && LocalDT.ltB b.start x.«end»)
    then some BErr.validationFailed
    else none

/-- POST branch of `api_bookings` in `src/accounts/api.py` (lines 204-250):
propose a booking.  Room lookup, working-hours validation, overlap check,
then `full_clean()` + `save()`.  (JSON decoding and the missing-field check
of the HTTP layer are outside the model: the inputs are already parsed.) -/
def api_bookings_post (st : Store) (roomId userId : Nat) (s e : LocalDT) :
    Store × Option BErr :=
  if !(st.rooms.contains roomId) then (st, some BErr.roomNotFound)
  else if !(is_within_working_hours s e) then (st, some BErr.outsideWorkingHours)
  else if has_overlap_active st.bookings roomId s e none then
    (st, some BErr.timeConflict)
  else
    let b : Booking :=
      { id := st.nextId, room := roomId, user := userId, start := s,
        «end» := e, status := Status.pending,
        approvedBy := none, approvedAt := none }
    match Booking.clean st.bookings b true with
    | some err => (st, some err)
    | none =>
        ({ st with bookings := st.bookings ++ [b], nextId := st.nextId + 1 },
         none)

/-- `api_booking_cancel` of `src/accounts/api.py` (lines 253-265): 404 when
absent, Forbidden unless owner or staff, then set CANCELLED unless the status
is already CANCELLED or REJECTED (no-op success), persisting only the status
field (`update_fields=["status"]`). -/
def api_booking_cancel (st : Store) (bookingId callerId : Nat)
    (callerIsStaff : Bool) : Store × Option BErr :=
  match st.bookings.find? (fun b => b.id == bookingId) with
  | none => (st, some BErr.notFound)
  | some b =>
      if !(b.user == callerId) && !callerIsStaff then (st, some BErr.forbidden)
      else if !(b.status == Status.cancelled) && !(b.status == Status.rejected)
      then
        ({ st with
            bookings := st.bookings.map fun x =>
              if x.id == bookingId then { x with status := Status.cancelled }
              else x },
         none)
      else (st, none)

/-- `api_booking_approve` of `src/accounts/api.py` (lines 268-298): 404 when
absent, "Not pending" unless PENDING, re-validate working hours, overlap
check excluding the booking itself, then set APPROVED; the approver identity
and timestamp are written only when the model has those fields (`hasattr`). -/
def api_booking_approve (st : Store) (bookingId approverId : Nat)
    (now : LocalDT) : Store × Option BErr :=
  match st.bookings.find? (fun b => b.id == bookingId) with
  | none => (st, some BErr.notFound)
  | some b =>
      if !(b.status == Status.pending) then (st, some BErr.invalidTransition)
      else if !(is_within_working_hours b.start b.«end») then
        (st, some BErr.outsideWorkingHours)
      else if has_overlap_active st.bookings b.room b.start b.«end» (some b.id)
      then (st, some BErr.timeConflict)
      else
        ({ st with
            bookings := st.bookings.map fun x =>
              if x.id == bookingId then
                let x1 := { x with status := Status.approved }
                let x2 :=
                  if bookingHasApproverFields then
                    { x1 with approvedBy := some approverId }
                  else x1
                if bookingHasApproverFields then
                  { x2 with approvedAt := some now }
                else x2
              else x },
         none)

/-- `api_booking_reject` of `src/accounts/api.py` (lines 301-317): 404 when
absent, "Not pending" unless PENDING, then set REJECTED; approver identity
and timestamp written only when the model has those fields (`hasattr`). -/
def api_booking_reject (st : Store) (bookingId approverId : Nat)
    (now : LocalDT) : Store × Option BErr :=
  match st.bookings.find? (fun b => b.id == bookingId) with
  | none => (st, some BErr.notFound)
  | some b =>
      if !(b.status == Status.pending) then (st, some BErr.invalidTransition)
      else
        ({ st with
            bookings := st.bookings.map fun x =>
              if x.id == bookingId then
                let x1 := { x with status := Status.rejected }
                let x2 :=
                  if bookingHasApproverFields then
                    { x1 with approvedBy := some approverId }
                  else x1
                if bookingHasApproverFields then
                  { x2 with approvedAt := some now }
                else x2
              else x },
         none)

/-- One engine operation. -/
inductive Op where
  | propose (roomId userId : Nat) (s e : LocalDT)
  | approve (bookingId approverId : Nat) (now : LocalDT)
  | reject (bookingId approverId : Nat) (now : LocalDT)
  | cancel (bookingId callerId : Nat) (callerIsStaff : Bool)
deriving DecidableEq, Repr

/-- Execute one operation: post-state and optional error. -/
def stepOp (st : Store) : Op → Store × Option BErr
  | Op.propose roomId userId s e => api_bookings_post st roomId userId s e
  | Op.approve bookingId approverId now =>
      api_booking_approve st bookingId approverId now
  | Op.reject bookingId approverId now =>
      api_booking_reject st bookingId approverId now
  | Op.cancel bookingId callerId staff =>
      api_booking_cancel st bookingId callerId staff

/-- Run a sequence of operations; a failing operation leaves the store as it
was (its post-state equals its pre-state, see the atomicity theorem). -/
def runOps (st : Store) (ops : List Op) : Store :=
  ops.foldl (fun s op => (stepOp s op).1) st

/-- `assert_no_conflict` errors of `src/core/services.py`. -/
inductive CoreErr where
  | startEndRequired
  | invalidRange
  | cannotBookPast
  | timeConflict
deriving DecidableEq, Repr

/-- `assert_no_conflict` of `src/core/services.py` (lines 4-23): rejects
`start >= end`, rejects `start < now` ("Cannot book in the past"), then
checks overlap against APPROVED bookings of the room, excluding `exclude_id`
when it is truthy (a non-zero id). -/
def assert_no_conflict (bookings : List Booking) (roomId : Nat)
    (s e : LocalDT) (excludeId : Option Nat) (now : LocalDT) :
    Option CoreErr :=
  if LocalDT.leB e s then some CoreErr.invalidRange
  else if LocalDT.ltB s now then some CoreErr.cannotBookPast
  else
    let qs := bookings.filter fun b =>
      b.room == roomId
      && b.status == Status.approved
      && LocalDT.ltB b.start e
      && LocalDT.ltB s b.«end»
    let qs2 : List Booking :=
      match excludeId with
      | some i => if !(i == 0) then qs.filter (fun b => !(b.id == i)) else qs
      | none => qs
    if qs2.isEmpty then none else some CoreErr.timeConflict

/-- Concrete example data: an APPROVED booking [10:00,11:00) and a PENDING
booking [11:00,12:00) on a Monday (`day = 7`), used by the witnesses. -/
def exBooking : Booking :=
  { id := 1, room := 1, user := 5, start := ⟨7, 600⟩, «end» := ⟨7, 660⟩,
    status := Status.approved, approvedBy := none, approvedAt := none }

def exStore : Store :=
  { rooms := [1], bookings := [exBooking], nextId := 2 }

def exBookingP : Booking :=
  { id := 2, room := 1, user := 5, start := ⟨7, 660⟩, «end» := ⟨7, 720⟩,
    status := Status.pending, approvedBy := none, approvedAt := none }

def exStoreP : Store :=
  { rooms := [1], bookings := [exBooking, exBookingP], nextId := 3 }

/-- The per-row update performed by a successful cancel. -/
def cancelUpd (bid : Nat) (x : Booking) : Booking :=
  if x.id == bid then { x with status := Status.cancelled } else x

/-- Two bookings' half-open intervals overlap. -/
def overlapB (a b : Booking) : Bool :=
  LocalDT.ltB a.start b.«end» && LocalDT.ltB b.start a.«end»

/-- No two active bookings of the same room overlap. -/
def NoOverlap (bs : List Booking) : Prop :=
  bs.Pairwise fun a b => a.room = b.room →
    isActive a.status = true → isActive b.status = true → overlapB a b = false

/-- Store well-formedness: primary keys below the auto-increment counter,
pairwise distinct, and the no-overlap invariant. -/
def StoreOk (st : Store) : Prop :=
  (∀ b ∈ st.bookings, b.id < st.nextId)
  ∧ st.bookings.Pairwise (fun a b => a.id ≠ b.id)
  ∧ NoOverlap st.bookings

theorem LocalDT.ltB_iff (a b : LocalDT) :
    LocalDT.ltB a b = true ↔
      (a.day < b.day ∨ (a.day = b.day ∧ a.minute < b.minute)) := by
  simp [LocalDT.ltB]

theorem LocalDT.leB_iff (a b : LocalDT) :
    LocalDT.leB a b = true ↔
      (a.day < b.day ∨ (a.day = b.day ∧ a.minute ≤ b.minute)) := by
  simp [LocalDT.leB]

theorem LocalDT.leB_eq_false_iff (a b : LocalDT) :
    LocalDT.leB a b = false ↔ LocalDT.ltB b a = true := by
  rw [LocalDT.ltB_iff, ← Bool.not_eq_true, LocalDT.leB_iff]
  constructor
  · intro h
    rcases Nat.lt_trichotomy a.day b.day with h1 | h1 | h1
    · exact absurd (Or.inl h1) h
    · right
      refine ⟨h1.symm, ?_⟩
      by_contra h2
      exact h (Or.inr ⟨h1, Nat.le_of_not_lt h2⟩)
    · exact Or.inl h1
  · rintro (h1 | ⟨h1, h2⟩) (h3 | ⟨h3, h4⟩) <;> omega

/-- C10: `assert_no_conflict` in `src/core/services.py` raises "Cannot book in
the past" for every interval whose start is earlier than the current time,
even when the interval is well-formed (`start < end`) and conflict-free (the
stored bookings are arbitrary, including none at all). -/
theorem assert_no_conflict_rejects_past (bookings : List Booking)
    (roomId : Nat) (s e : LocalDT) (excludeId : Option Nat) (now : LocalDT)
    (hrange : LocalDT.ltB s e = true)
    (hpast : LocalDT.ltB s now = true) :
    assert_no_conflict bookings roomId s e excludeId now =
      some CoreErr.cannotBookPast := by
  have h1 : LocalDT.leB e s = false := (LocalDT.leB_eq_false_iff e s).mpr hrange
  simp [assert_no_conflict, h1, hpast]

theorem assert_no_conflict_rejects_past_witness :
    (LocalDT.ltB ⟨0, 600⟩ ⟨0, 660⟩ = true ∧ LocalDT.ltB ⟨0, 600⟩ ⟨3, 500⟩ = true)
    ∧ assert_no_conflict [] 1 ⟨0, 600⟩ ⟨0, 660⟩ none ⟨3, 500⟩ =
        some CoreErr.cannotBookPast :=
  ⟨⟨by decide, by decide⟩,
   assert_no_conflict_rejects_past [] 1 ⟨0, 600⟩ ⟨0, 660⟩ none ⟨3, 500⟩
     (by decide) (by decide)⟩

/-- C4: for a candidate interval that is well-formed (end after start, same
local calendar day, allowed weekday), validation fails if and only if the
local wall-clock start is strictly before `WORK_START` or the local
wall-clock end is strictly after `WORK_END`; an interval starting exactly at
`WORK_START` or ending exactly at `WORK_END` is accepted.  (The accounts API
reports every validation failure through the single working-hours error
message, so "fails with OutsideWorkHours" is "`_is_within_working_hours`
returns False".) -/
theorem working_hours_boundary (s e : LocalDT)
    (hr : LocalDT.ltB s e = true) (hd : s.day = e.day)
    (hw : WORK_DAYS.contains (s.day % 7) = true) :
    (is_within_working_hours s e = false ↔
      (s.minute < WORK_START ∨ WORK_END < e.minute))
    ∧ (WORK_START ≤ s.minute → e.minute ≤ WORK_END →
        is_within_working_hours s e = true) := by
  have h1 : LocalDT.leB e s = false := (LocalDT.leB_eq_false_iff e s).mpr hr
  have hw2 : e.day % 7 ∈ WORK_DAYS := by
    have := hd ▸ hw
    simpa using this
  constructor
  · simp [is_within_working_hours, h1, hd, hw2, WORK_START, WORK_END]
    omega
  · intro h2 h3
    simp only [WORK_START, WORK_END] at h2 h3
    simp [is_within_working_hours, h1, hd, hw2, WORK_START, WORK_END]
    omega

theorem working_hours_boundary_witness :
    (LocalDT.ltB ⟨7, 480⟩ ⟨7, 1200⟩ = true ∧ (7 : Nat) = 7 ∧
      WORK_DAYS.contains (7 % 7) = true)
    ∧ (is_within_working_hours ⟨7, 480⟩ ⟨7, 1200⟩ = false ↔
        ((480 : Nat) < WORK_START ∨ WORK_END < (1200 : Nat))) :=
  ⟨⟨by decide, rfl, by decide⟩,
   (working_hours_boundary ⟨7, 480⟩ ⟨7, 1200⟩ (by decide) rfl (by decide)).1⟩

/-- C8: every operation is atomic with respect to errors — whenever
`propose`, `approve`, `reject` or `cancel` returns a failure, the booking
store is exactly as it was before the call. -/
theorem step_error_atomicity (st : Store) (op : Op)
    (h : (stepOp st op).2.isSome = true) : (stepOp st op).1 = st := by
  revert h
  cases op <;>
    simp only [stepOp, api_bookings_post, api_booking_approve,
      api_booking_reject, api_booking_cancel] <;>
    (repeat' split) <;> simp

theorem step_error_atomicity_witness :
    (stepOp (initStore [1]) (Op.approve 1 2 ⟨0, 0⟩)).2.isSome = true
    ∧ (stepOp (initStore [1]) (Op.approve 1 2 ⟨0, 0⟩)).1 = initStore [1] :=
  ⟨by decide,
   step_error_atomicity (initStore [1]) (Op.approve 1 2 ⟨0, 0⟩) (by decide)⟩

theorem clean_only_validation (bs : List Booking) (b : Booking) (isNew : Bool)
    (err : BErr) (h : Booking.clean bs b isNew = some err) :
    err = BErr.validationFailed := by
  unfold Booking.clean at h
  split_ifs at h <;> simp_all

/-- C5: the conflict check treats two intervals as overlapping iff
`a.start < b.end` and `a.end > b.start` (first conjunct), and proposing a
booking that only touches existing active bookings at endpoints
(back-to-back adjacency, `existing.end ≤ start` or `end ≤ existing.start`)
never fails with TimeConflict (second conjunct). -/
theorem overlap_halfopen_adjacency :
    (∀ (bs : List Booking) (roomId : Nat) (s e : LocalDT),
        has_overlap_active bs roomId s e none = true ↔
          ∃ b ∈ bs, b.room = roomId ∧ isActive b.status = true ∧
            LocalDT.ltB b.start e = true ∧ LocalDT.ltB s b.«end» = true)
    ∧ (∀ (st : Store) (roomId userId : Nat) (s e : LocalDT),
        (∀ b ∈ st.bookings, b.room = roomId → isActive b.status = true →
          LocalDT.leB b.«end» s = true ∨ LocalDT.leB e b.start = true) →
        (api_bookings_post st roomId userId s e).2 ≠ some BErr.timeConflict) := by
  constructor
  · intro bs roomId s e
    simp [has_overlap_active, List.any_eq_true, Bool.and_eq_true, beq_iff_eq]
    tauto
  · intro st roomId userId s e hadj
    have hov : has_overlap_active st.bookings roomId s e none = false := by
      rw [← Bool.not_eq_true]
      simp [has_overlap_active, List.any_eq_true, Bool.and_eq_true, beq_iff_eq]
      intro b hb hroom hact hlt
      by_contra hcon
      rw [Bool.not_eq_false] at hcon
      rcases hadj b hb hroom hact with hc | hc
      · rw [← LocalDT.leB_eq_false_iff] at hcon
        simp [hc] at hcon
      · rw [← LocalDT.leB_eq_false_iff] at hlt
        simp [hc] at hlt
    simp only [api_bookings_post]
    split_ifs with h1 h2 h3
    · simp
    · simp
    · rw [hov] at h3
      exact absurd h3 (by simp)
    · split
      · rename_i err heq
        have hv := clean_only_validation _ _ _ err heq
        simp [hv]
      · simp

theorem overlap_halfopen_adjacency_witness :
    (∀ b ∈ exStore.bookings, b.room = 1 → isActive b.status = true →
      LocalDT.leB b.«end» ⟨7, 660⟩ = true ∨ LocalDT.leB ⟨7, 720⟩ b.start = true)
    ∧ (api_bookings_post exStore 1 5 ⟨7, 660⟩ ⟨7, 720⟩).2 ≠
        some BErr.timeConflict :=
  ⟨by decide,
   overlap_halfopen_adjacency.2 exStore 1 5 ⟨7, 660⟩ ⟨7, 720⟩ (by decide)⟩

theorem find?_map_id_pres (l : List Booking) (f : Booking → Booking)
    (bid : Nat) (hf : ∀ x, (f x).id = x.id) :
    (l.map f).find? (fun b => b.id == bid) =
      (l.find? (fun b => b.id == bid)).map f := by
  rw [List.find?_map]
  have hp : ((fun b => b.id == bid) ∘ f) = (fun b : Booking => b.id == bid) := by
    funext x
    simp [hf x]
  rw [hp]

/-- C6: `cancel_booking` is idempotent for an authorized caller: if the
status is already CANCELLED or REJECTED the call is a no-op success; calling
it twice yields success both times, the second call changes nothing, and
(whenever the booking was not REJECTED) the booking reads CANCELLED after
the first call and hence after the second as well. -/
theorem cancel_idempotent (st : Store) (bid caller : Nat) (staff : Bool)
    (b : Booking)
    (hfind : st.bookings.find? (fun x => x.id == bid) = some b)
    (hauth : b.user = caller ∨ staff = true) :
    ((b.status = Status.cancelled ∨ b.status = Status.rejected) →
      api_booking_cancel st bid caller staff = (st, none))
    ∧ (api_booking_cancel st bid caller staff).2 = none
    ∧ (api_booking_cancel (api_booking_cancel st bid caller staff).1 bid
        caller staff).2 = none
    ∧ (api_booking_cancel (api_booking_cancel st bid caller staff).1 bid
        caller staff).1 = (api_booking_cancel st bid caller staff).1
    ∧ (b.status ≠ Status.rejected →
        ((api_booking_cancel st bid caller staff).1.bookings.find?
          (fun x => x.id == bid)) = some { b with status := Status.cancelled }) := by
  have hbid : (b.id == bid) = true := by
    have := List.find?_some hfind
    simpa using this
  have hauthB : (!(b.user == caller) && !staff) = false := by
    rcases hauth with h | h <;> simp [h]
  by_cases hterm : b.status = Status.cancelled ∨ b.status = Status.rejected
  · have hguard : (!(b.status == Status.cancelled) &&
        !(b.status == Status.rejected)) = false := by
      rcases hterm with h | h <;> simp [h]
    have h1 : api_booking_cancel st bid caller staff = (st, none) := by
      simp [api_booking_cancel, hfind, hauthB, hguard]
    refine ⟨fun _ => h1, by simp [h1], by simp [h1], by simp [h1], ?_⟩
    intro hnr
    have hc : b.status = Status.cancelled := by tauto
    have : ({ b with status := Status.cancelled } : Booking) = b := by
      cases b
      simp_all
    rw [h1]
    simp [this, hfind]
  · push_neg at hterm
    have hguard : (!(b.status == Status.cancelled) &&
        !(b.status == Status.rejected)) = true := by
      simp [hterm.1, hterm.2]
    have h1 : api_booking_cancel st bid caller staff =
        ({ st with bookings := st.bookings.map fun x =>
            if x.id == bid then { x with status := Status.cancelled } else x },
         none) := by
      simp [api_booking_cancel, hfind, hauthB, hguard]
    have hfind1 : ((api_booking_cancel st bid caller staff).1.bookings.find?
        (fun x => x.id == bid)) = some { b with status := Status.cancelled } := by
      rw [h1]
      simp only
      rw [find?_map_id_pres st.bookings _ bid (by
        intro x
        by_cases hx : (x.id == bid) = true <;> simp [hx])]
      rw [hfind]
      simp [show b.id = bid by simpa using hbid]
    have h2 : api_booking_cancel (api_booking_cancel st bid caller staff).1
        bid caller staff = ((api_booking_cancel st bid caller staff).1, none) := by
      generalize hst1 : (api_booking_cancel st bid caller staff).1 = st1 at hfind1
      rcases hauth with h | h <;> simp [api_booking_cancel, hfind1, h]
    exact ⟨fun h => absurd h (by tauto), by simp [h1], by simp [h2],
      by simp [h2], fun _ => hfind1⟩

theorem cancel_idempotent_witness :
    (exStoreP.bookings.find? (fun x => x.id == 2) = some exBookingP ∧
      (exBookingP.user = 5 ∨ false = true))
    ∧ ((api_booking_cancel exStoreP 2 5 false).2 = none ∧
        (api_booking_cancel (api_booking_cancel exStoreP 2 5 false).1 2 5
          false).2 = none ∧
        ((api_booking_cancel exStoreP 2 5 false).1.bookings.find?
          (fun x => x.id == 2)) =
            some { exBookingP with status := Status.cancelled }) :=
  ⟨⟨by decide, Or.inl (by decide)⟩,
   (cancel_idempotent exStoreP 2 5 false exBookingP (by decide)
      (Or.inl rfl)).2.1,
   (cancel_idempotent exStoreP 2 5 false exBookingP (by decide)
      (Or.inl rfl)).2.2.1,
   (cancel_idempotent exStoreP 2 5 false exBookingP (by decide)
      (Or.inl rfl)).2.2.2.2 (by decide)⟩

/-- C3: `approve_booking` fails with InvalidTransition whenever the loaded
booking's status is not PENDING; otherwise it re-runs the validator on the
stored interval, then checks overlap against active bookings of the room
excluding the booking itself, failing with TimeConflict when an overlapping
booking exists; on success the booking's status becomes APPROVED. -/
theorem approve_characterization (st : Store) (bid aid : Nat) (now : LocalDT)
    (b : Booking)
    (hfind : st.bookings.find? (fun x => x.id == bid) = some b) :
    (b.status ≠ Status.pending →
      api_booking_approve st bid aid now = (st, some BErr.invalidTransition))
    ∧ (b.status = Status.pending →
        is_within_working_hours b.start b.«end» = false →
        api_booking_approve st bid aid now = (st, some BErr.outsideWorkingHours))
    ∧ (b.status = Status.pending →
        is_within_working_hours b.start b.«end» = true →
        has_overlap_active st.bookings b.room b.start b.«end» (some b.id) = true →
        api_booking_approve st bid aid now = (st, some BErr.timeConflict))
    ∧ (b.status = Status.pending →
        is_within_working_hours b.start b.«end» = true →
        has_overlap_active st.bookings b.room b.start b.«end» (some b.id) = false →
        (api_booking_approve st bid aid now).2 = none ∧
        ((api_booking_approve st bid aid now).1.bookings.find?
          (fun x => x.id == bid)) = some { b with status := Status.approved }) := by
  have hbid : b.id = bid := by
    have := List.find?_some hfind
    simpa using this
  refine ⟨?_, ?_, ?_, ?_⟩
  · intro hs
    simp [api_booking_approve, hfind, hs]
  · intro hs hw
    simp [api_booking_approve, hfind, hs, hw]
  · intro hs hw ho
    simp [api_booking_approve, hfind, hs, hw, ho]
  · intro hs hw ho
    have h1 : api_booking_approve st bid aid now =
        ({ st with bookings := st.bookings.map fun x =>
            if x.id == bid then { x with status := Status.approved } else x },
         none) := by
      simp [api_booking_approve, hfind, hs, hw, ho, bookingHasApproverFields]
    refine ⟨by simp [h1], ?_⟩
    rw [h1]
    simp only
    rw [find?_map_id_pres st.bookings _ bid (by
      intro x
      by_cases hx : (x.id == bid) = true <;> simp [hx])]
    rw [hfind]
    simp [hbid]

theorem approve_characterization_witness :
    (exStoreP.bookings.find? (fun x => x.id == 2) = some exBookingP ∧
      exBookingP.status = Status.pending ∧
      is_within_working_hours exBookingP.start exBookingP.«end» = true ∧
      has_overlap_active exStoreP.bookings exBookingP.room exBookingP.start
        exBookingP.«end» (some exBookingP.id) = false)
    ∧ ((api_booking_approve exStoreP 2 9 ⟨7, 0⟩).2 = none ∧
        ((api_booking_approve exStoreP 2 9 ⟨7, 0⟩).1.bookings.find?
          (fun x => x.id == 2)) =
            some { exBookingP with status := Status.approved }) :=
  ⟨⟨by decide, by decide, by decide, by decide⟩,
   (approve_characterization exStoreP 2 9 ⟨7, 0⟩ exBookingP (by decide)).2.2.2
     (by decide) (by decide) (by decide)⟩

/-- C7 counterexample: a successful `approve_booking` does NOT record the
approver's identity or an approval timestamp — the accounts `Booking` model
has no `approved_by`/`approved_at` columns, so the `hasattr`-guarded writes
in the API never run and both slots stay `none` after approval. -/
theorem approve_records_no_approver_cex :
    (api_booking_approve exStoreP 2 9 ⟨7, 0⟩).2 = none ∧
    (((api_booking_approve exStoreP 2 9 ⟨7, 0⟩).1.bookings.find?
        (fun x => x.id == 2)).map Booking.approvedBy) = some none ∧
    (((api_booking_approve exStoreP 2 9 ⟨7, 0⟩).1.bookings.find?
        (fun x => x.id == 2)).map Booking.approvedAt) = some none := by
  decide

/-- C7 amended: on every successful `approve_booking` the persisted booking
is the loaded booking with only its status changed to APPROVED (approver
identity and timestamp are untouched, because the accounts Booking model
lacks those fields), and likewise `reject_booking` changes only the status
to REJECTED. -/
theorem approve_reject_no_approver_fields (st : Store) (bid aid : Nat)
    (now : LocalDT) (b : Booking)
    (hfind : st.bookings.find? (fun x => x.id == bid) = some b) :
    ((api_booking_approve st bid aid now).2 = none →
      ((api_booking_approve st bid aid now).1.bookings.find?
        (fun x => x.id == bid)) = some { b with status := Status.approved })
    ∧ ((api_booking_reject st bid aid now).2 = none →
      ((api_booking_reject st bid aid now).1.bookings.find?
        (fun x => x.id == bid)) = some { b with status := Status.rejected }) := by
  have hbid : b.id = bid := by
    have := List.find?_some hfind
    simpa using this
  have hidpres : ∀ x : Booking,
      ((if x.id == bid then { x with status := Status.approved } else x) :
        Booking).id = x.id := by
    intro x
    by_cases hx : (x.id == bid) = true <;> simp [hx]
  constructor
  · intro hok
    by_cases hs : b.status = Status.pending
    · by_cases hw : is_within_working_hours b.start b.«end» = true
      · by_cases ho : has_overlap_active st.bookings b.room b.start b.«end»
            (some b.id) = true
        · exfalso
          simp [api_booking_approve, hfind, hs, hw, ho] at hok
        · have ho2 : has_overlap_active st.bookings b.room b.start b.«end»
              (some b.id) = false := by simpa using ho
          have h1 : api_booking_approve st bid aid now =
              ({ st with bookings := st.bookings.map fun x =>
                  if x.id == bid then { x with status := Status.approved }
                  else x },
               none) := by
            simp [api_booking_approve, hfind, hs, hw, ho2,
              bookingHasApproverFields]
          rw [h1]
          simp only
          rw [find?_map_id_pres st.bookings _ bid hidpres, hfind]
          simp [hbid]
      · have hw2 : is_within_working_hours b.start b.«end» = false := by
          simpa using hw
        exfalso
        simp [api_booking_approve, hfind, hs, hw2] at hok
    · exfalso
      simp [api_booking_approve, hfind, hs] at hok
  · intro hok
    by_cases hs : b.status = Status.pending
    · have h1 : api_booking_reject st bid aid now =
          ({ st with bookings := st.bookings.map fun x =>
              if x.id == bid then { x with status := Status.rejected }
              else x },
           none) := by
        simp [api_booking_reject, hfind, hs, bookingHasApproverFields]
      rw [h1]
      simp only
      rw [find?_map_id_pres st.bookings _ bid (by
        intro x
        by_cases hx : (x.id == bid) = true <;> simp [hx]), hfind]
      simp [hbid]
    · exfalso
      simp [api_booking_reject, hfind, hs] at hok

theorem approve_reject_no_approver_fields_witness :
    (exStoreP.bookings.find? (fun x => x.id == 2) = some exBookingP ∧
      (api_booking_approve exStoreP 2 9 ⟨7, 0⟩).2 = none)
    ∧ ((api_booking_approve exStoreP 2 9 ⟨7, 0⟩).1.bookings.find?
        (fun x => x.id == 2)) =
          some { exBookingP with status := Status.approved } :=
  ⟨⟨by decide, by decide⟩,
   (approve_reject_no_approver_fields exStoreP 2 9 ⟨7, 0⟩ exBookingP
      (by decide)).1 (by decide)⟩

/-- C9: a successful `cancel_booking` on a PENDING or APPROVED booking
modifies only the booking's status field (to CANCELLED): rooms and the id
counter are untouched, the booking list is a per-row status-only rewrite,
and every row keeps its id, room, user, start, end and approver slots. -/
theorem cancel_frame (st : Store) (bid caller : Nat) (staff : Bool)
    (b : Booking)
    (hfind : st.bookings.find? (fun x => x.id == bid) = some b)
    (hstatus : b.status = Status.pending ∨ b.status = Status.approved)
    (hauth : b.user = caller ∨ staff = true) :
    (api_booking_cancel st bid caller staff).2 = none
    ∧ (api_booking_cancel st bid caller staff).1.rooms = st.rooms
    ∧ (api_booking_cancel st bid caller staff).1.nextId = st.nextId
    ∧ (api_booking_cancel st bid caller staff).1.bookings =
        st.bookings.map (cancelUpd bid)
    ∧ ∀ x ∈ st.bookings,
        (cancelUpd bid x).id = x.id ∧
        (cancelUpd bid x).room = x.room ∧
        (cancelUpd bid x).user = x.user ∧
        (cancelUpd bid x).start = x.start ∧
        (cancelUpd bid x).«end» = x.«end» ∧
        (cancelUpd bid x).approvedBy = x.approvedBy ∧
        (cancelUpd bid x).approvedAt = x.approvedAt := by
  have hauthB : (!(b.user == caller) && !staff) = false := by
    rcases hauth with h | h <;> simp [h]
  have hguard : (!(b.status == Status.cancelled) &&
      !(b.status == Status.rejected)) = true := by
    rcases hstatus with h | h <;> simp [h]
  have h1 : api_booking_cancel st bid caller staff =
      ({ st with bookings := st.bookings.map (cancelUpd bid) }, none) := by
    simp [api_booking_cancel, hfind, hauthB, hguard, cancelUpd]
  refine ⟨by simp [h1], by simp [h1], by simp [h1], by simp [h1], ?_⟩
  intro x _
  unfold cancelUpd
  by_cases hx : (x.id == bid) = true <;> simp [hx]

theorem cancel_frame_witness :
    (exStoreP.bookings.find? (fun x => x.id == 2) = some exBookingP ∧
      (exBookingP.status = Status.pending ∨
        exBookingP.status = Status.approved) ∧
      (exBookingP.user = 5 ∨ false = true))
    ∧ ((api_booking_cancel exStoreP 2 5 false).2 = none ∧
        (api_booking_cancel exStoreP 2 5 false).1.bookings =
          exStoreP.bookings.map (cancelUpd 2)) :=
  ⟨⟨by decide, Or.inl (by decide), Or.inl (by decide)⟩,
   (cancel_frame exStoreP 2 5 false exBookingP (by decide) (Or.inl rfl)
      (Or.inl rfl)).1,
   (cancel_frame exStoreP 2 5 false exBookingP (by decide) (Or.inl rfl)
      (Or.inl rfl)).2.2.2.1⟩

theorem isActive_iff (s : Status) :
    isActive s = true ↔ (s = Status.pending ∨ s = Status.approved) := by
  cases s <;> simp [isActive]

theorem mem_id_eq_found (l : List Booking) (bid : Nat) (b x : Booking)
    (hdist : l.Pairwise (fun a b => a.id ≠ b.id))
    (hfind : l.find? (fun y => y.id == bid) = some b)
    (hx : x ∈ l) (hxid : x.id = bid) : x = b := by
  induction l with
  | nil => cases hx
  | cons a t ih =>
      rw [List.find?_cons] at hfind
      by_cases ha : (a.id == bid) = true
      · rw [ha] at hfind
        simp at hfind
        rcases List.mem_cons.mp hx with hxa | hxt
        · rw [hxa, hfind]
        · exfalso
          have hne := (List.pairwise_cons.mp hdist).1 x hxt
          have haid : a.id = bid := by simpa using ha
          exact hne (haid.trans hxid.symm)
      · rw [Bool.not_eq_true] at ha
        rw [ha] at hfind
        simp at hfind
        rcases List.mem_cons.mp hx with hxa | hxt
        · exfalso
          have haid : ¬ a.id = bid := by simpa using ha
          exact haid (hxa ▸ hxid)
        · exact ih (List.pairwise_cons.mp hdist).2 hfind hxt

theorem storeOk_propose (st : Store) (roomId userId : Nat) (s e : LocalDT)
    (hok : StoreOk st) : StoreOk (api_bookings_post st roomId userId s e).1 := by
  obtain ⟨hbound, hdist, hnov⟩ := hok
  cases hroom : st.rooms.contains roomId with
  | false =>
      have hrm : ¬ roomId ∈ st.rooms := by simpa using hroom
      simp [api_bookings_post, hrm]
      exact ⟨hbound, hdist, hnov⟩
  | true =>
  have hrm : roomId ∈ st.rooms := by simpa using hroom
  cases hw : is_within_working_hours s e with
  | false =>
      simp [api_bookings_post, hrm, hw]
      exact ⟨hbound, hdist, hnov⟩
  | true =>
  cases hov : has_overlap_active st.bookings roomId s e none with
  | true =>
      simp [api_bookings_post, hrm, hw, hov]
      exact ⟨hbound, hdist, hnov⟩
  | false =>
  cases hclean : Booking.clean st.bookings
      { id := st.nextId, room := roomId, user := userId, start := s,
        «end» := e, status := Status.pending,
        approvedBy := none, approvedAt := none } true with
  | some err =>
      simp [api_bookings_post, hrm, hw, hov, hclean]
      exact ⟨hbound, hdist, hnov⟩
  | none =>
      have hstep : (api_bookings_post st roomId userId s e).1 =
          { st with
              bookings := st.bookings ++
                [{ id := st.nextId, room := roomId, user := userId,
                   start := s, «end» := e, status := Status.pending,
                   approvedBy := none, approvedAt := none }],
              nextId := st.nextId + 1 } := by
        simp [api_bookings_post, hrm, hw, hov, hclean]
      rw [hstep]
      refine ⟨?_, ?_, ?_⟩
      · intro b hb
        rcases List.mem_append.mp hb with hb | hb
        · exact Nat.lt_succ_of_lt (hbound b hb)
        · simp at hb
          rw [hb]
          exact Nat.lt_succ_self _
      · rw [List.pairwise_append]
        refine ⟨hdist, by simp, ?_⟩
        intro a ha c hc
        simp at hc
        rw [hc]
        exact Nat.ne_of_lt (hbound a ha)
      · unfold NoOverlap
        rw [List.pairwise_append]
        refine ⟨hnov, by simp, ?_⟩
        intro a ha c hc
        simp at hc
        rw [hc]
        intro hroomEq hactA hactNew
        simp [has_overlap_active, List.any_eq_false] at hov
        have hcl := hov a ha
        simp [overlapB]
        exact hcl (by simpa using hroomEq) hactA

theorem storeOk_statusMap (st : Store) (bid : Nat) (ns : Status) (b : Booking)
    (hfind : st.bookings.find? (fun x => x.id == bid) = some b)
    (hok : StoreOk st)
    (hact : isActive ns = true → isActive b.status = true) :
    StoreOk { st with
      bookings := st.bookings.map
        (fun x => if x.id == bid then { x with status := ns } else x) } := by
  obtain ⟨hbound, hdist, hnov⟩ := hok
  have hidp : ∀ x : Booking,
      ((if x.id == bid then { x with status := ns } else x) : Booking).id
        = x.id := by
    intro x
    by_cases hx : (x.id == bid) = true <;> simp [hx]
  have hroomp : ∀ x : Booking,
      ((if x.id == bid then { x with status := ns } else x) : Booking).room
        = x.room := by
    intro x
    by_cases hx : (x.id == bid) = true <;> simp [hx]
  have hstartp : ∀ x : Booking,
      ((if x.id == bid then { x with status := ns } else x) : Booking).start
        = x.start := by
    intro x
    by_cases hx : (x.id == bid) = true <;> simp [hx]
  have hendp : ∀ x : Booking,
      ((if x.id == bid then { x with status := ns } else x) : Booking).«end»
        = x.«end» := by
    intro x
    by_cases hx : (x.id == bid) = true <;> simp [hx]
  have hactp : ∀ x : Booking, x ∈ st.bookings →
      isActive ((if x.id == bid then { x with status := ns } else x) :
        Booking).status = true → isActive x.status = true := by
    intro x hx hactx
    by_cases hxid : (x.id == bid) = true
    · have hxb : x = b :=
        mem_id_eq_found st.bookings bid b x hdist hfind hx (by simpa using hxid)
      rw [hxb]
      apply hact
      simpa [hxid] using hactx
    · simpa [hxid] using hactx
  refine ⟨?_, ?_, ?_⟩
  · intro c hc
    rw [List.mem_map] at hc
    obtain ⟨x, hx, hxc⟩ := hc
    rw [← hxc]
    simp only [hidp]
    exact hbound x hx
  · rw [List.pairwise_map]
    refine hdist.imp ?_
    intro a c h
    simp only [hidp]
    exact h
  · unfold NoOverlap
    rw [List.pairwise_map]
    refine List.Pairwise.imp_of_mem ?_ hnov
    intro a c ha hc hrel hroomEq hactA hactC
    have hoeq : overlapB (if a.id == bid then { a with status := ns } else a)
        (if c.id == bid then { c with status := ns } else c)
          = overlapB a c := by
      by_cases h1 : (a.id == bid) = true <;>
        by_cases h2 : (c.id == bid) = true <;>
          simp [overlapB, h1, h2]
    rw [hoeq]
    refine hrel ?_ (hactp a ha hactA) (hactp c hc hactC)
    rw [hroomp, hroomp] at hroomEq
    exact hroomEq

theorem storeOk_approve (st : Store) (bid aid : Nat) (now : LocalDT)
    (hok : StoreOk st) : StoreOk (api_booking_approve st bid aid now).1 := by
  cases hfind : st.bookings.find? (fun b => b.id == bid) with
  | none => simpa [api_booking_approve, hfind] using hok
  | some b =>
    by_cases hs : b.status = Status.pending
    · cases hw : is_within_working_hours b.start b.«end» with
      | false => simpa [api_booking_approve, hfind, hs, hw] using hok
      | true =>
        cases ho : has_overlap_active st.bookings b.room b.start b.«end»
            (some b.id) with
        | true => simpa [api_booking_approve, hfind, hs, hw, ho] using hok
        | false =>
          have hstep : (api_booking_approve st bid aid now).1 =
              { st with
                bookings := st.bookings.map
                  (fun x => if x.id == bid then
                    { x with status := Status.approved } else x) } := by
            simp [api_booking_approve, hfind, hs, hw, ho,
              bookingHasApproverFields]
          rw [hstep]
          exact storeOk_statusMap st bid Status.approved b hfind hok
            (fun _ => by simp [hs, isActive])
    · simpa [api_booking_approve, hfind, hs] using hok

theorem storeOk_reject (st : Store) (bid aid : Nat) (now : LocalDT)
    (hok : StoreOk st) : StoreOk (api_booking_reject st bid aid now).1 := by
  cases hfind : st.bookings.find? (fun b => b.id == bid) with
  | none => simpa [api_booking_reject, hfind] using hok
  | some b =>
    by_cases hs : b.status = Status.pending
    · have hstep : (api_booking_reject st bid aid now).1 =
          { st with
            bookings := st.bookings.map
              (fun x => if x.id == bid then
                { x with status := Status.rejected } else x) } := by
        simp [api_booking_reject, hfind, hs, bookingHasApproverFields]
      rw [hstep]
      exact storeOk_statusMap st bid Status.rejected b hfind hok
        (fun h => by simp [isActive] at h)
    · simpa [api_booking_reject, hfind, hs] using hok

theorem storeOk_cancel (st : Store) (bid caller : Nat) (staff : Bool)
    (hok : StoreOk st) : StoreOk (api_booking_cancel st bid caller staff).1 := by
  cases hfind : st.bookings.find? (fun b => b.id == bid) with
  | none => simpa [api_booking_cancel, hfind] using hok
  | some b =>
    by_cases hg : (!(b.user == caller) && !staff) = true
    · simpa [api_booking_cancel, hfind, hg] using hok
    · by_cases hg2 : (!(b.status == Status.cancelled) &&
          !(b.status == Status.rejected)) = true
      · have hstep : (api_booking_cancel st bid caller staff).1 =
            { st with
              bookings := st.bookings.map
                (fun x => if x.id == bid then
                  { x with status := Status.cancelled } else x) } := by
          simp only [Bool.not_eq_true] at hg
          simp [api_booking_cancel, hfind, hg, hg2]
        rw [hstep]
        exact storeOk_statusMap st bid Status.cancelled b hfind hok
          (fun h => by simp [isActive] at h)
      · simp only [Bool.not_eq_true] at hg hg2
        simpa [api_booking_cancel, hfind, hg, hg2] using hok

theorem storeOk_stepOp (st : Store) (op : Op) (hok : StoreOk st) :
    StoreOk (stepOp st op).1 := by
  cases op with
  | propose roomId userId s e => exact storeOk_propose st roomId userId s e hok
  | approve bid aid now => exact storeOk_approve st bid aid now hok
  | reject bid aid now => exact storeOk_reject st bid aid now hok
  | cancel bid caller staff => exact storeOk_cancel st bid caller staff hok

theorem storeOk_runOps (st : Store) (ops : List Op) (hok : StoreOk st) :
    StoreOk (runOps st ops) := by
  induction ops generalizing st with
  | nil => exact hok
  | cons op t ih => exact ih (stepOp st op).1 (storeOk_stepOp st op hok)

/-- C1: for any room, after any sequence of `propose`/`approve`/`reject`/
`cancel` operations starting from a store with no bookings, no two bookings
of that room with status PENDING or APPROVED have overlapping half-open
intervals (overlap: `a.start < b.end` and `a.end > b.start`).  `runOps`
leaves the store unchanged on a failing operation, so this covers every
sequence of successful operations. -/
theorem no_overlap_invariant (rooms : List Nat) (ops : List Op) :
    (runOps (initStore rooms) ops).bookings.Pairwise fun a b =>
      a.room = b.room →
      (a.status = Status.pending ∨ a.status = Status.approved) →
      (b.status = Status.pending ∨ b.status = Status.approved) →
      ¬(LocalDT.ltB a.start b.«end» = true ∧
        LocalDT.ltB b.start a.«end» = true) := by
  have hinit : StoreOk (initStore rooms) := by
    refine ⟨?_, ?_, ?_⟩ <;> simp [initStore, NoOverlap]
  have h := (storeOk_runOps (initStore rooms) ops hinit).2.2
  unfold NoOverlap at h
  refine h.imp ?_
  intro a b hrel
  intro hroom hactA hactB hcon
  obtain ⟨h1, h2⟩ := hcon
  have ho := hrel hroom ((isActive_iff a.status).mpr hactA)
    ((isActive_iff b.status).mpr hactB)
  simp [overlapB, h1, h2] at ho
